import Mathlib

/-!
Verification of the OTA patching pipeline of avbroot, shallowly embedded
from src/avbroot/src/cli/ota.rs.  Pure functions from that file are
translated to Lean functions; stateful pieces become explicit state
passing.  External collaborators (the AVB codec, the payload codec and
the zip path constants) are modelled from the specification where noted.
-/

set_option maxHeartbeats 1000000

namespace AvbrootOta

/-- Provenance tag of a pooled image file, from the `InputFileState` enum
in ota.rs (lines 128-133). -/
inductive InputFileState where
  | External
  | Extracted
  | Modified
deriving DecidableEq, Repr

/-- State trajectory of a pooled entry when the boot-image patch writer
callback runs (ota.rs lines 229-235): the backing file is swapped for a
fresh temp file and the state is set to `Modified` regardless of the
previous state. -/
def bootPatchStates (_ : InputFileState) : List InputFileState :=
  [InputFileState.Modified]

/-- State trajectory of the `system` entry in `patch_system_image`
(ota.rs lines 262-286): an `External` entry is first copied to a temp
file and marked `Extracted` (lines 264-275), then the entry is marked
`Modified` after patching (line 286). -/
def systemPatchStates (s : InputFileState) : List InputFileState :=
  if s = InputFileState.External then
    [InputFileState.Extracted, InputFileState.Modified]
  else
    [InputFileState.Modified]

/-- State trajectory of a vbmeta entry rewritten by
`update_vbmeta_headers` (ota.rs lines 616-628): the backing file is
replaced and the state is set to `Modified` regardless of the previous
state. -/
def vbmetaRewriteStates (_ : InputFileState) : List InputFileState :=
  [InputFileState.Modified]

/-- All state-changing operations of one patch run that act on an
already pooled entry, each given by the sequence of states the entry
passes through. -/
def patchRunStateTrajectories : List (InputFileState → List InputFileState) :=
  [bootPatchStates, systemPatchStates, vbmetaRewriteStates]

/-- An operation moves an entry straight from `External` to `Modified`
when, started at `External`, the first state it assigns is `Modified`. -/
def directExternalToModified (f : InputFileState → List InputFileState) : Bool :=
  match f InputFileState.External with
  | InputFileState.Modified :: _ => true
  | _ => false

/-- Zip64 decision for a rewritten archive entry, from ota.rs line 957:
the declared size of the input entry is compared against 0xffffffff. -/
def useZip64 (size : Nat) : Bool :=
  size ≥ 0xffffffff

/-- Modelled from the spec: the zip path constant for the legacy text
OTA metadata entry (the `ota` module is outside the embedded file). -/
def PATH_METADATA : String := "META-INF/com/android/metadata"

/-- Modelled from the spec: the zip path constant for the protobuf OTA
metadata entry. -/
def PATH_METADATA_PB : String := "META-INF/com/android/metadata.pb"

/-- Modelled from the spec: the zip path constant for the OTA
certificate entry. -/
def PATH_OTACERT : String := "META-INF/com/android/otacert"

/-- True for the two OTA metadata entries, which `patch_ota_zip` parses
but does not emit during the main loop (ota.rs lines 963-992). -/
def isMetadataPath (p : String) : Bool :=
  p == PATH_METADATA || p == PATH_METADATA_PB

/-- One input zip entry as seen by the `patch_ota_zip` entry loop:
its path, the size declared by the input archive (`reader.size()`), and
the offset and size the entry ends up with in the output. -/
structure InEntry where
  path : String
  declSize : Nat
  outOffset : Nat
  outSize : Nat
deriving DecidableEq, Repr

/-- The record pushed onto `entries` for each written zip entry
(ota.rs lines 1062-1066), extended with the zip64 decision made for
that entry so the claim about the data descriptor size can be stated. -/
structure ZipEntryRec where
  name : String
  offset : Nat
  size : Nat
  zip64 : Bool
deriving DecidableEq, Repr

/-- Loop state of the `patch_ota_zip` entry loop: the written entry
records and the `last_entry_used_zip64` flag (ota.rs line 943). -/
structure EntryLoopState where
  entries : List ZipEntryRec
  lastZip64 : Bool
deriving DecidableEq, Repr

/-- The entry record written for one non-metadata input entry. -/
def mkZipRec (e : InEntry) : ZipEntryRec :=
  { name := e.path, offset := e.outOffset, size := e.outSize, zip64 := useZip64 e.declSize }

/-- One iteration of the `patch_ota_zip` entry loop (ota.rs lines
945-1069): metadata entries are parsed and skipped via `continue`;
every other entry is written, its record pushed, and
`last_entry_used_zip64` updated. -/
def entryLoopStep (st : EntryLoopState) (e : InEntry) : EntryLoopState :=
  if isMetadataPath e.path then st
  else { entries := st.entries ++ [mkZipRec e], lastZip64 := useZip64 e.declSize }

/-- The whole entry loop, over the sorted path list (ota.rs line 945). -/
def runEntryLoop (l : List InEntry) : EntryLoopState :=
  l.foldl entryLoopStep { entries := [], lastZip64 := false }

/-- Data descriptor size chosen after the loop (ota.rs line 1073). -/
def dataDescSize (z : Bool) : Nat :=
  if z then 24 else 16

/-- The first free offset passed to `ota::add_metadata` (ota.rs lines
1074-1078): `entries.last().map(|e| e.offset + e.size).unwrap() +
data_descriptor_size`, as an `Option` in place of the unwrap. -/
def firstFreeOffset (st : EntryLoopState) : Option Nat :=
  st.entries.getLast?.map (fun e => e.offset + e.size + dataDescSize st.lastZip64)

/-- Modelled from the spec: an AVB property descriptor (key and value)
from the external AVB codec, as used by `update_metadata_descriptors`. -/
structure PropertyDescriptor where
  key : String
  value : String
deriving DecidableEq, Repr

/-- Modelled from the spec: an AVB kernel command line descriptor from
the external AVB codec; fields other than the command line are
abstracted into `payload`. -/
structure KernelCmdlineDescriptor where
  cmdline : String
  payload : Nat
deriving DecidableEq, Repr

/-- Modelled from the spec: an AVB hash descriptor; fields other than
the partition name (digest, salt, image size, ...) are abstracted into
`payload`. -/
structure HashDescriptor where
  partition_name : String
  payload : Nat
deriving DecidableEq, Repr

/-- Modelled from the spec: an AVB hash tree descriptor; fields other
than the partition name are abstracted into `payload`. -/
structure HashTreeDescriptor where
  partition_name : String
  payload : Nat
deriving DecidableEq, Repr

/-- Modelled from the spec: an AVB chain partition descriptor carrying
the embedded public key of the chained partition; the remaining fields
(rollback index location, ...) are abstracted into `payload`. -/
structure ChainPartitionDescriptor where
  partition_name : String
  public_key : List Nat
  payload : Nat
deriving DecidableEq, Repr

/-- Modelled from the spec: the tagged AVB descriptor variants
(Hash, HashTree, ChainPartition, Property, KernelCmdline, and others
passed through unchanged). -/
inductive Descriptor where
  | Hash (d : HashDescriptor)
  | HashTree (d : HashTreeDescriptor)
  | ChainPartition (d : ChainPartitionDescriptor)
  | Property (d : PropertyDescriptor)
  | KernelCmdline (d : KernelCmdlineDescriptor)
  | Unknown (tag : Nat) (payload : Nat)
deriving DecidableEq, Repr

/-- Modelled from the spec: `Descriptor::partition_name()` of the AVB
codec yields the named partition for Hash, HashTree and ChainPartition
descriptors and nothing for the metadata descriptors. -/
def Descriptor.partitionName? : Descriptor → Option String
  | .Hash d => some d.partition_name
  | .HashTree d => some d.partition_name
  | .ChainPartition d => some d.partition_name
  | _ => none

/-- Modelled from the spec: `Descriptor::type_name()` of the AVB codec,
used only to build error messages. -/
def Descriptor.typeName : Descriptor → String
  | .Hash _ => "Hash"
  | .HashTree _ => "HashTree"
  | .ChainPartition _ => "ChainPartition"
  | .Property _ => "Property"
  | .KernelCmdline _ => "KernelCmdline"
  | .Unknown _ _ => "Unknown"

/-- Modelled from the spec: an AVB header is a descriptor list, a flags
field, a public key blob and an algorithm identifier; the header is
signed iff the public key blob is non-empty. -/
structure Header where
  descriptors : List Descriptor
  flags : Nat
  public_key : List Nat
  algorithm_type : Nat
deriving DecidableEq, Repr

/-- Modelled from the spec: `Header::set_algo_for_key` selects the
signing algorithm from the key's size; keys are abstract naturals. -/
def Header.setAlgoForKey (key : Nat) (h : Header) : Header :=
  { h with algorithm_type := key + 1 }

/-- Modelled from the spec: `Header::sign` embeds the public part of the
signing key (always a non-empty blob) and signs the header; descriptors
and flags are untouched. -/
def Header.sign (key : Nat) (h : Header) : Header :=
  { h with public_key := [key + 1] }

/-- A pooled input file for the AVB phase: the provenance state together
with the header that `avb::load_image` would parse from its content
(`none` when the content is not a valid AVB image). -/
structure InputFile where
  hdr : Option Header
  state : InputFileState
deriving DecidableEq, Repr

/-- First-match association list lookup, the model of map indexing. -/
def lookupA {α : Type} (l : List (String × α)) (k : String) : Option α :=
  (l.find? (fun p => p.1 == k)).map (fun p => p.2)

/-- Pointwise map update for an existing key, the model of writing
through `get_mut`. -/
def setA {α : Type} (l : List (String × α)) (k : String) (v : α) :
    List (String × α) :=
  l.map (fun p => if p.1 == k then (k, v) else p)

/-- Boot-like partition names (`RequiredImages::is_boot`, ota.rs lines
99-101). -/
def isBootName (name : String) : Bool :=
  name == "boot" || name == "init_boot" || name == "recovery" || name == "vendor_boot"

/-- The system partition name (`RequiredImages::is_system`, ota.rs lines
103-105). -/
def isSystemName (name : String) : Bool :=
  name == "system"

/-- Vbmeta-like partition names (`RequiredImages::is_vbmeta`, ota.rs
lines 107-109). -/
def isVbmetaName (name : String) : Bool :=
  name.startsWith "vbmeta"

/-- Sorted insertion without duplicates, the model of `BTreeSet`
insertion. -/
def insertSorted (x : String) : List String → List String
  | [] => [x]
  | y :: rest =>
    if x = y then y :: rest
    else if x < y then x :: y :: rest
    else y :: insertSorted x rest

/-- Collect a list into a sorted duplicate-free list, the model of
collecting into a `BTreeSet`. -/
def sortedInsertAll (l : List String) : List String :=
  l.foldl (fun s x => insertSorted x s) []

/-- The missing-partition list computed by `ensure_partitions_protected`
(ota.rs lines 324-349): critical partitions are the boot-like and
vbmeta-like names of the manifest; protected partitions are the loaded
vbmeta names plus every partition name mentioned by a descriptor of a
loaded vbmeta header. -/
def missingProtected (required : List String)
    (vbmetaHeaders : List (String × Header)) : List String :=
  let critical := sortedInsertAll
    (required.filter (fun n => isBootName n) ++ required.filter (fun n => isVbmetaName n))
  let avb := sortedInsertAll
    (vbmetaHeaders.map (fun p => p.1) ++
      vbmetaHeaders.flatMap (fun p => p.2.descriptors.filterMap Descriptor.partitionName?))
  critical.filter (fun n => !(avb.contains n))

/-- `ensure_partitions_protected` (ota.rs lines 324-355): fails iff some
critical partition is not covered, listing the missing names. -/
def ensurePartitionsProtected (required : List String)
    (vbmetaHeaders : List (String × Header)) : Except String Unit :=
  let missing := missingProtected required vbmetaHeaders
  if missing.isEmpty then Except.ok ()
  else
    Except.error ("Found critical partitions that are not protected by AVB: " ++
      String.intercalate ", " missing)

/-- True when a parent and child descriptor are both Hash or both
HashTree, the two shapes accepted by the unsigned-child branch of
`update_security_descriptors` (ota.rs lines 471-481). -/
def hashTypesMatch : Descriptor → Descriptor → Bool
  | .Hash _, .Hash _ => true
  | .HashTree _, .HashTree _ => true
  | _, _ => false

/-- True for chain partition descriptors. -/
def isChainD : Descriptor → Bool
  | .ChainPartition _ => true
  | _ => false

/-- The unsigned-child dispatch of `update_security_descriptors`
(ota.rs lines 471-481): copy the child's self descriptor over the
parent descriptor when both are Hash or both are HashTree, otherwise
fail. -/
def secCopyUnsigned (rest : List Descriptor) (parentName childName : String)
    (d cd : Descriptor) : Except String (List Descriptor) :=
  match d, cd with
  | .Hash _, .Hash c => Except.ok (Descriptor.Hash c :: rest)
  | .HashTree _, .HashTree c => Except.ok (Descriptor.HashTree c :: rest)
  | _, _ =>
    Except.error (childName ++ " descriptor (" ++ cd.typeName ++
      ") does not match entry in " ++ parentName ++ " (" ++ d.typeName ++ ")")

/-- The signed-child dispatch of `update_security_descriptors` (ota.rs
lines 483-491): the parent descriptor must be a chain descriptor, whose
public key field is replaced by the child's. -/
def secUpdateSigned (rest : List Descriptor) (parentName childName : String)
    (pk : List Nat) (d : Descriptor) : Except String (List Descriptor) :=
  match d with
  | .ChainPartition p =>
    Except.ok (Descriptor.ChainPartition { p with public_key := pk } :: rest)
  | _ =>
    Except.error (childName ++ " descriptor (" ++ d.typeName ++ ") in " ++
      parentName ++ " must be a chain descriptor")

/-- Rewrite of the first parent descriptor naming `childName`, the body
of `update_security_descriptors` (ota.rs lines 445-495) expressed as a
recursion over the parent descriptor list; the empty case models the
unwrap on the parent descriptor lookup (lines 453-457). -/
def updateSecDescList (child : Header) (parentName childName : String) :
    List Descriptor → Except String (List Descriptor)
  | [] => Except.error ("no descriptor in " ++ parentName ++ " for " ++ childName)
  | d :: rest =>
    if d.partitionName? = some childName then
      if child.public_key = [] then
        match child.descriptors.find? (fun c => c.partitionName? == some childName) with
        | none => Except.error (childName ++ " has no descriptor for itself")
        | some cd => secCopyUnsigned rest parentName childName d cd
      else secUpdateSigned rest parentName childName child.public_key d
    else
      (updateSecDescList child parentName childName rest).map (fun l => d :: l)

/-- `update_security_descriptors` (ota.rs lines 445-495): copy the hash
or hashtree descriptor from an unsigned child into the parent, or
update the chain descriptor's public key for a signed child. -/
def updateSecurityDescriptors (parent child : Header)
    (parentName childName : String) : Except String Header :=
  (updateSecDescList child parentName childName parent.descriptors).map
    (fun ds => { parent with descriptors := ds })

/-- `cmdline_prefix` (ota.rs lines 499-508): the text before the first
equal sign of a kernel command line, if the command line contains an
equal sign and that text is non-empty. -/
def cmdlineKey (cmdline : String) : Option String :=
  match cmdline.splitOn "=" with
  | [] => none
  | [_] => none
  | p :: _ :: _ => if p = "" then none else some p

/-- Overwrite the value of the first parent Property descriptor whose
key is `k` (ota.rs lines 525-531); `none` when no parent key matches. -/
def setFirstPropValue (k v : String) : List Descriptor → Option (List Descriptor)
  | [] => none
  | d :: rest =>
    match d with
    | .Property p =>
      if p.key = k then some (Descriptor.Property { p with value := v } :: rest)
      else (setFirstPropValue k v rest).map (fun l => Descriptor.Property p :: l)
    | _ => (setFirstPropValue k v rest).map (fun l => d :: l)

/-- Overwrite the command line of the first parent KernelCmdline
descriptor whose computed key equals `pre` (ota.rs lines 543-551);
`none` when no parent command line matches. -/
def setFirstCmdline (pre c : String) : List Descriptor → Option (List Descriptor)
  | [] => none
  | d :: rest =>
    match d with
    | .KernelCmdline p =>
      if cmdlineKey p.cmdline = some pre then
        some (Descriptor.KernelCmdline { p with cmdline := c } :: rest)
      else (setFirstCmdline pre c rest).map (fun l => Descriptor.KernelCmdline p :: l)
    | _ => (setFirstCmdline pre c rest).map (fun l => d :: l)

/-- Merge one child descriptor into the parent descriptor list, the
loop body of `update_metadata_descriptors` (ota.rs lines 522-560). -/
def mergeChildDescriptor (ds : List Descriptor) : Descriptor → List Descriptor
  | .Property c =>
    match setFirstPropValue c.key c.value ds with
    | some ds' => ds'
    | none => ds ++ [Descriptor.Property c]
  | .KernelCmdline c =>
    match cmdlineKey c.cmdline with
    | none => ds
    | some pre =>
      match setFirstCmdline pre c.cmdline ds with
      | some ds' => ds'
      | none => ds ++ [Descriptor.KernelCmdline c]
  | _ => ds

/-- `update_metadata_descriptors` (ota.rs lines 517-561): a no-op for a
signed child; for an unsigned child, merge every child Property and
KernelCmdline descriptor into the parent. -/
def updateMetadataDescriptors (parent child : Header) : Header :=
  if child.public_key = [] then
    { parent with descriptors := child.descriptors.foldl mergeChildDescriptor parent.descriptors }
  else parent

/-- True for the descriptor kinds handled by the merge loop. -/
def isMetaKind : Descriptor → Bool
  | .Property _ => true
  | .KernelCmdline _ => true
  | _ => false

/-- True for a Property descriptor whose key is `k`, the match condition
of the Property merge (ota.rs line 526). -/
def isPropWithKey (k : String) : Descriptor → Bool
  | .Property p => p.key == k
  | _ => false

/-- True for a KernelCmdline descriptor whose computed command line key
is `k`, the match condition of the KernelCmdline merge (ota.rs line
544). -/
def isCmdlineWithKey (k : String) : Descriptor → Bool
  | .KernelCmdline p => cmdlineKey p.cmdline == some k
  | _ => false

/-- The error produced when a vbmeta header carries non-zero flags and
clearing was not requested (ota.rs lines 591-594); the source formats
the flags in hexadecimal within the same sentence. -/
def vbmetaFlagsError (name : String) (flags : Nat) : String :=
  "Verified boot is disabled by the header flags of " ++ name ++ ": " ++ toString flags

/-- Load the header of a dependency image (ota.rs lines 599-601). -/
def loadChildHeader (images : List (String × InputFile)) (dep : String) :
    Except String Header :=
  match lookupA images dep with
  | none => Except.error ("missing image: " ++ dep)
  | some f =>
    match f.hdr with
    | none => Except.error ("Failed to load vbmeta footer from image: " ++ dep)
    | some h => Except.ok h

/-- Process one dependency edge of a vbmeta node (ota.rs lines
598-605): load the child header, update the security descriptor, then
merge the metadata descriptors. -/
def applyDep (images : List (String × InputFile)) (parentName : String)
    (h : Header) (dep : String) : Except String Header := do
  let child ← loadChildHeader images dep
  let h' ← updateSecurityDescriptors h child parentName dep
  Except.ok (updateMetadataDescriptors h' child)

/-- The dependency loop of one `update_vbmeta_headers` iteration. -/
def depsFold (images : List (String × InputFile)) (parentName : String)
    (h : Header) (deps : List String) : Except String Header :=
  deps.foldlM (applyDep images parentName) h

/-- One iteration of `update_vbmeta_headers` (ota.rs lines 583-630):
check and optionally clear the flags, process each dependency edge, and
re-sign and mark the pool entry `Modified` iff the header changed
relative to its snapshot. -/
def updateVbmetaStep (clear : Bool) (key blockSize : Nat)
    (st : List (String × InputFile) × List (String × Header))
    (item : String × List String) :
    Except String (List (String × InputFile) × List (String × Header)) :=
  let images := st.1
  let headers := st.2
  let name := item.1
  let deps := item.2
  match lookupA headers name with
  | none => Except.error ("missing header: " ++ name)
  | some parent0 => do
    let h1 ←
      if parent0.flags ≠ 0 then
        if clear then Except.ok { parent0 with flags := 0 }
        else Except.error (vbmetaFlagsError name parent0.flags)
      else Except.ok parent0
    let h2 ← depsFold images name h1 deps
    if h2 = parent0 then
      Except.ok (images, setA headers name h2)
    else
      let signed := Header.sign key (Header.setAlgoForKey key h2)
      Except.ok
        (setA images name { hdr := some signed, state := InputFileState.Modified },
         setA headers name signed)

/-- `update_vbmeta_headers` (ota.rs lines 575-633) over the computed
patch order.  `blockSize` only governs the zero padding of the
rewritten image, which the embedding abstracts away. -/
def updateVbmetaHeaders (clear : Bool) (key blockSize : Nat)
    (images : List (String × InputFile)) (headers : List (String × Header))
    (order : List (String × List String)) :
    Except String (List (String × InputFile) × List (String × Header)) :=
  order.foldlM (updateVbmetaStep clear key blockSize) (images, headers)

/-- Insertion-ordered duplicate removal, the model of collecting into a
`HashSet`. -/
def dedupKeep (l : List String) : List String :=
  l.foldl (fun acc x => if acc.contains x then acc else acc ++ [x]) []

/-- The dependency set of one vbmeta header (ota.rs lines 371-388): the
partition names mentioned by its descriptors that are in the image pool
and are either vbmeta nodes themselves or images whose state is not
`Extracted`. -/
def vbmetaDeps (images : List (String × InputFile))
    (vbmetaHeaders : List (String × Header)) (h : Header) : List String :=
  dedupKeep ((h.descriptors.filterMap Descriptor.partitionName?).filter
    (fun pn =>
      match lookupA images pn with
      | none => false
      | some f =>
        (lookupA vbmetaHeaders pn).isSome || !(f.state == InputFileState.Extracted)))

/-- One pop of the topological sort (the `topological_sort` crate):
return a node all of whose predecessors have already been removed. -/
def topoPop (remaining : List String) (edges : List (String × String)) :
    Option String :=
  remaining.find? (fun n =>
    !(edges.any (fun e => e.2 == n && remaining.contains e.1)))

/-- The pop loop of `get_vbmeta_patch_order` (ota.rs lines 426-436),
with fuel bounding the number of pops; running out of poppable nodes
while nodes remain reports the cycle. -/
def topoRun (fuel : Nat) (remaining : List String)
    (edges : List (String × String)) (depGraph : List (String × List String))
    (acc : List (String × List String)) :
    Except String (List (String × List String)) :=
  match fuel with
  | 0 =>
    if remaining.isEmpty then Except.ok acc
    else Except.error "vbmeta dependency graph has cycle"
  | fuel' + 1 =>
    if remaining.isEmpty then Except.ok acc
    else
      match topoPop remaining edges with
      | some n =>
        let acc' :=
          match lookupA depGraph n with
          | some ds => acc ++ [(n, ds)]
          | none => acc
        topoRun fuel' (remaining.erase n) edges depGraph acc'
      | none => Except.error "vbmeta dependency graph has cycle"

/-- `get_vbmeta_patch_order` (ota.rs lines 360-439): build the vbmeta
dependency graph, require at most one root of trust, and compute the
patch order with a topological sort whose elements are exactly the
nodes mentioned by some dependency edge. -/
def getVbmetaPatchOrder (images : List (String × InputFile))
    (vbmetaHeaders : List (String × Header)) :
    Except String (List (String × List String)) :=
  let depGraph := vbmetaHeaders.map
    (fun p => (p.1, vbmetaDeps images vbmetaHeaders p.2))
  let roots := (vbmetaHeaders.map (fun p => p.1)).filter
    (fun n => !(depGraph.any (fun q => q.2.contains n)))
  if roots.length > 1 then
    Except.error ("Found multiple root vbmeta images: " ++
      String.intercalate ", " (sortedInsertAll roots))
  else
    let edges := depGraph.flatMap (fun q => q.2.map (fun d => (d, q.1)))
    let nodes := dedupKeep (edges.flatMap (fun e => [e.1, e.2]))
    topoRun nodes.length nodes edges depGraph []

/-- A destination block extent of a payload install operation. -/
structure Extent where
  startBlock : Nat
  numBlocks : Nat
deriving DecidableEq, Repr

/-- Install operation types; only REPLACE is produced by the full
recompression path. -/
inductive InstOpType where
  | REPLACE
  | ZERO
  | otherOp (code : Nat)
deriving DecidableEq, Repr

/-- A payload install operation: its type and destination extents. -/
structure InstOp where
  typ : InstOpType
  dstExtents : List Extent
deriving DecidableEq, Repr

/-- An extent covers a block when the block lies inside it. -/
def extentCovers (e : Extent) (b : Nat) : Prop :=
  e.startBlock ≤ b ∧ b < e.startBlock + e.numBlocks

/-- Modelled from the spec: `payload::compress_image` (external codec)
re-chunks the whole image at the block size and emits REPLACE
operations covering every block; `numBlocks` is the image size in
blocks and `chunkBlocks` the chunk size in blocks. -/
def fullCompressOps (numBlocks chunkBlocks : Nat) : List InstOp :=
  (List.range ((numBlocks + chunkBlocks - 1) / chunkBlocks)).map (fun i =>
    { typ := InstOpType.REPLACE,
      dstExtents := [{ startBlock := i * chunkBlocks,
                       numBlocks := min chunkBlocks (numBlocks - i * chunkBlocks) }] })

/-- Errors of the external payload codec; `extentsNotInOrder` is the
error the partial recompression path reports when the original
operations' extents are not sorted and non-overlapping. -/
inductive PayloadErr where
  | extentsNotInOrder
  | otherErr (msg : String)
deriving DecidableEq, Repr

/-- Outcome of `compress_image` (ota.rs lines 639-703): the resulting
operation list, the modified-operation index ranges returned to the
caller, whether the partial recompression path produced the result,
and whether the fallback warning was logged. -/
structure CompressOut where
  ops : List InstOp
  modifiedOps : List (Nat × Nat)
  viaRangeHint : Bool
  warnedFallback : Bool
deriving DecidableEq, Repr

/-- `compress_image` (ota.rs lines 639-703).  `tryModified` stands for
the external `payload::compress_modified_image`, invoked only when a
range hint is present; on its `extentsNotInOrder` error the function
logs a warning and recompresses the whole image, and with no hint it
always recompresses the whole image with fresh REPLACE operations. -/
def compressImage (ranges : Option (List (Nat × Nat)))
    (tryModified : List (Nat × Nat) → Except PayloadErr (List (Nat × Nat)))
    (origOps : List InstOp) (numBlocks chunkBlocks : Nat) :
    Except PayloadErr CompressOut :=
  let fullOps := fullCompressOps numBlocks chunkBlocks
  let full := fun warned =>
    Except.ok { ops := fullOps, modifiedOps := [(0, fullOps.length)],
                viaRangeHint := false, warnedFallback := warned }
  match ranges with
  | some r =>
    match tryModified r with
    | Except.ok idx =>
      Except.ok { ops := origOps, modifiedOps := idx,
                  viaRangeHint := true, warnedFallback := false }
    | Except.error PayloadErr.extentsNotInOrder => full true
    | Except.error e => Except.error e
  | none => full false

/-- The range hint argument computed at the `compress_image` call site
in `patch_ota_payload` (ota.rs lines 815-821): present exactly when the
partition is the system target and was not supplied as an external
replacement. -/
def rangeHintArg (name systemTarget : String) (externalNames : List String)
    (systemRanges : List (Nat × Nat)) : Option (List (Nat × Nat)) :=
  if name == systemTarget && !(externalNames.contains name) then some systemRanges
  else none

/-- Certificates are abstract values compared only for equality. -/
abbrev Cert := Nat

/-- The certificate consistency and trust checks of `verify_subcommand`
(ota.rs lines 1428-1445).  `embedded` is the certificate recovered from
the whole-file CMS signature, `otaEntry` the certificate stored in the
archive's OTA certificate entry and `trusted` the optional user supplied
certificate.  The returned Bool is true when the unknown-trust warning
was emitted. -/
def verifyOtaCerts (embedded otaEntry : Cert) (trusted : Option Cert) :
    Except String Bool :=
  if embedded ≠ otaEntry then
    Except.error ("CMS embedded certificate does not match " ++ PATH_OTACERT)
  else
    match trusted with
    | some t =>
      if embedded ≠ t then
        Except.error "OTA has a valid signature, but was not signed with the supplied certificate"
      else
        Except.ok false
    | none => Except.ok true

/-! Theorems.  Helper lemmas come first; the theorem, witness and
counterexample of each claim follow. -/

theorem entryLoop_entries (l : List InEntry) :
    ∀ st : EntryLoopState,
      (l.foldl entryLoopStep st).entries =
        st.entries ++ (l.filter (fun e => !isMetadataPath e.path)).map mkZipRec := by
  induction l with
  | nil => intro st; simp
  | cons e l ih =>
    intro st
    by_cases h : isMetadataPath e.path
    · simp [List.foldl_cons, entryLoopStep, h, ih]
    · simp [List.foldl_cons, entryLoopStep, h, ih]

theorem entryLoop_lastZip64 (l : List InEntry) :
    ∀ st : EntryLoopState,
      (∀ x, st.entries.getLast? = some x → st.lastZip64 = x.zip64) →
      ∀ x, (l.foldl entryLoopStep st).entries.getLast? = some x →
        (l.foldl entryLoopStep st).lastZip64 = x.zip64 := by
  induction l with
  | nil => intro st hst x hx; exact hst x hx
  | cons e l ih =>
    intro st hst x hx
    rw [List.foldl_cons] at hx ⊢
    refine ih (entryLoopStep st e) ?_ x hx
    intro y hy
    by_cases h : isMetadataPath e.path
    · rw [entryLoopStep, if_pos h] at hy ⊢
      exact hst y hy
    · rw [entryLoopStep, if_neg h] at hy ⊢
      simp only [List.getLast?_concat] at hy
      cases hy
      rfl

theorem updateSecDescList_skip (child : Header) (pName cName : String)
    (pre : List Descriptor) (rest : List Descriptor)
    (hpre : ∀ d ∈ pre, d.partitionName? ≠ some cName) :
    updateSecDescList child pName cName (pre ++ rest) =
      (updateSecDescList child pName cName rest).map (fun l => pre ++ l) := by
  induction pre with
  | nil =>
    simp only [List.nil_append]
    cases updateSecDescList child pName cName rest <;> simp [Except.map]
  | cons d pre ih =>
    have hd : d.partitionName? ≠ some cName := hpre d (by simp)
    have hrec := ih (fun x hx => hpre x (by simp [hx]))
    simp only [List.cons_append, updateSecDescList, if_neg hd, List.append_eq]
    rw [hrec]
    cases updateSecDescList child pName cName rest <;> rfl

/-- C2: for a dependency edge processed by
`update_security_descriptors`, with `pd` the parent's first descriptor
naming the child: when the child header is unsigned, the child's own
descriptor `cd` is copied over `pd` and the call fails unless both are
Hash or both are HashTree (it also fails when the child has no
descriptor for itself); when the child is signed, the call fails unless
`pd` is a chain partition descriptor, in which case exactly its public
key field is replaced by the child's public key. -/
theorem c2_update_security_descriptors
    (parent child : Header) (pName cName : String)
    (pre post : List Descriptor) (pd : Descriptor)
    (hsplit : parent.descriptors = pre ++ pd :: post)
    (hpre : ∀ d ∈ pre, d.partitionName? ≠ some cName)
    (hpd : pd.partitionName? = some cName) :
    (child.public_key = [] →
      (child.descriptors.find? (fun c => c.partitionName? == some cName) = none →
        updateSecurityDescriptors parent child pName cName =
          Except.error (cName ++ " has no descriptor for itself")) ∧
      (∀ cd, child.descriptors.find? (fun c => c.partitionName? == some cName) = some cd →
        (hashTypesMatch pd cd = true →
          updateSecurityDescriptors parent child pName cName =
            Except.ok { parent with descriptors := pre ++ cd :: post }) ∧
        (hashTypesMatch pd cd = false →
          updateSecurityDescriptors parent child pName cName =
            Except.error (cName ++ " descriptor (" ++ cd.typeName ++
              ") does not match entry in " ++ pName ++ " (" ++ pd.typeName ++ ")")))) ∧
    (child.public_key ≠ [] →
      (∀ q, pd = Descriptor.ChainPartition q →
        updateSecurityDescriptors parent child pName cName =
          Except.ok { parent with descriptors :=
            pre ++ Descriptor.ChainPartition { q with public_key := child.public_key } :: post }) ∧
      (isChainD pd = false →
        updateSecurityDescriptors parent child pName cName =
          Except.error (cName ++ " descriptor (" ++ pd.typeName ++ ") in " ++ pName ++
            " must be a chain descriptor"))) := by
  have hskip := updateSecDescList_skip child pName cName pre (pd :: post) hpre
  refine ⟨fun hpk => ⟨fun hfind => ?_, fun cd hfind => ⟨fun hmatch => ?_, fun hmatch => ?_⟩⟩,
    fun hpk => ⟨fun q hq => ?_, fun hchain => ?_⟩⟩
  · simp [updateSecurityDescriptors, hsplit, hskip, updateSecDescList, hpd, hpk, hfind,
      Except.map]
  · simp only [updateSecurityDescriptors, hsplit, hskip, updateSecDescList, hpd, hpk, hfind,
      if_true, eq_self_iff_true, List.nil_eq]
    cases pd <;> cases cd <;>
      simp_all [secCopyUnsigned, hashTypesMatch, Except.map]
  · simp only [updateSecurityDescriptors, hsplit, hskip, updateSecDescList, hpd, hpk, hfind,
      if_true, eq_self_iff_true, List.nil_eq]
    cases pd <;> cases cd <;>
      simp_all [secCopyUnsigned, hashTypesMatch, Descriptor.typeName, Except.map]
  · subst hq
    simp [updateSecurityDescriptors, hsplit, hskip, updateSecDescList, hpd, hpk,
      secUpdateSigned, Except.map]
  · simp only [updateSecurityDescriptors, hsplit, hskip, updateSecDescList, hpd, hpk,
      if_true, eq_self_iff_true]
    cases pd <;>
      simp_all [secUpdateSigned, isChainD, Descriptor.typeName, Except.map]

/-- C2 witness: an unsigned child whose hash descriptor is copied over
the parent's hash descriptor for the child partition. -/
theorem c2_witness :
    updateSecurityDescriptors
      { descriptors := [Descriptor.Hash { partition_name := "boot", payload := 0 }],
        flags := 0, public_key := [5], algorithm_type := 0 }
      { descriptors := [Descriptor.Hash { partition_name := "boot", payload := 9 }],
        flags := 0, public_key := [], algorithm_type := 0 }
      "vbmeta" "boot" =
      Except.ok
        { descriptors := [Descriptor.Hash { partition_name := "boot", payload := 9 }],
          flags := 0, public_key := [5], algorithm_type := 0 } :=
  (((c2_update_security_descriptors
      { descriptors := [Descriptor.Hash { partition_name := "boot", payload := 0 }],
        flags := 0, public_key := [5], algorithm_type := 0 }
      { descriptors := [Descriptor.Hash { partition_name := "boot", payload := 9 }],
        flags := 0, public_key := [], algorithm_type := 0 }
      "vbmeta" "boot" [] []
      (Descriptor.Hash { partition_name := "boot", payload := 0 })
      rfl (by simp) rfl).1 rfl).2
    (Descriptor.Hash { partition_name := "boot", payload := 9 }) rfl).1 rfl

theorem setFirstPropValue_none (k v : String) :
    ∀ ds, setFirstPropValue k v ds = none ↔ ∀ d ∈ ds, isPropWithKey k d = false := by
  intro ds
  induction ds with
  | nil => simp [setFirstPropValue]
  | cons d rest ih =>
    cases d with
    | Property p =>
      by_cases h : p.key = k
      · simp [setFirstPropValue, isPropWithKey, h]
      · simp [setFirstPropValue, isPropWithKey, h, Option.map_eq_none', ih]
    | Hash a => simp [setFirstPropValue, isPropWithKey, Option.map_eq_none', ih]
    | HashTree a => simp [setFirstPropValue, isPropWithKey, Option.map_eq_none', ih]
    | ChainPartition a => simp [setFirstPropValue, isPropWithKey, Option.map_eq_none', ih]
    | KernelCmdline a => simp [setFirstPropValue, isPropWithKey, Option.map_eq_none', ih]
    | Unknown t a => simp [setFirstPropValue, isPropWithKey, Option.map_eq_none', ih]

theorem setFirstPropValue_skip (k v : String) (pre : List Descriptor)
    (hpre : ∀ d ∈ pre, isPropWithKey k d = false) (rest : List Descriptor) :
    setFirstPropValue k v (pre ++ rest) =
      (setFirstPropValue k v rest).map (fun l => pre ++ l) := by
  induction pre with
  | nil =>
    simp only [List.nil_append]
    cases setFirstPropValue k v rest <;> simp
  | cons d pre ih =>
    have hd := hpre d (by simp)
    have hrec := ih (fun x hx => hpre x (by simp [hx]))
    cases d
    case Property p =>
      have hk : ¬ p.key = k := by simpa [isPropWithKey] using hd
      simp only [List.cons_append, setFirstPropValue, if_neg hk, List.append_eq]
      rw [hrec]
      cases setFirstPropValue k v rest <;> rfl
    all_goals
      simp only [List.cons_append, setFirstPropValue, List.append_eq]
      rw [hrec]
      cases setFirstPropValue k v rest <;> rfl

theorem setFirstPropValue_hit (k v : String) (p : PropertyDescriptor)
    (hk : p.key = k) (rest : List Descriptor) :
    setFirstPropValue k v (Descriptor.Property p :: rest) =
      some (Descriptor.Property { p with value := v } :: rest) := by
  simp [setFirstPropValue, hk]

theorem setFirstCmdline_none (k c : String) :
    ∀ ds, setFirstCmdline k c ds = none ↔ ∀ d ∈ ds, isCmdlineWithKey k d = false := by
  intro ds
  induction ds with
  | nil => simp [setFirstCmdline]
  | cons d rest ih =>
    cases d with
    | KernelCmdline p =>
      by_cases h : cmdlineKey p.cmdline = some k
      · simp [setFirstCmdline, isCmdlineWithKey, h]
      · simp [setFirstCmdline, isCmdlineWithKey, h, Option.map_eq_none', ih]
    | Hash a => simp [setFirstCmdline, isCmdlineWithKey, Option.map_eq_none', ih]
    | HashTree a => simp [setFirstCmdline, isCmdlineWithKey, Option.map_eq_none', ih]
    | ChainPartition a => simp [setFirstCmdline, isCmdlineWithKey, Option.map_eq_none', ih]
    | Property a => simp [setFirstCmdline, isCmdlineWithKey, Option.map_eq_none', ih]
    | Unknown t a => simp [setFirstCmdline, isCmdlineWithKey, Option.map_eq_none', ih]

theorem setFirstCmdline_skip (k c : String) (pre : List Descriptor)
    (hpre : ∀ d ∈ pre, isCmdlineWithKey k d = false) (rest : List Descriptor) :
    setFirstCmdline k c (pre ++ rest) =
      (setFirstCmdline k c rest).map (fun l => pre ++ l) := by
  induction pre with
  | nil =>
    simp only [List.nil_append]
    cases setFirstCmdline k c rest <;> simp
  | cons d pre ih =>
    have hd := hpre d (by simp)
    have hrec := ih (fun x hx => hpre x (by simp [hx]))
    cases d
    case KernelCmdline p =>
      have hk : ¬ cmdlineKey p.cmdline = some k := by simpa [isCmdlineWithKey] using hd
      simp only [List.cons_append, setFirstCmdline, if_neg hk, List.append_eq]
      rw [hrec]
      cases setFirstCmdline k c rest <;> rfl
    all_goals
      simp only [List.cons_append, setFirstCmdline, List.append_eq]
      rw [hrec]
      cases setFirstCmdline k c rest <;> rfl

theorem setFirstCmdline_hit (k c : String) (p : KernelCmdlineDescriptor)
    (hk : cmdlineKey p.cmdline = some k) (rest : List Descriptor) :
    setFirstCmdline k c (Descriptor.KernelCmdline p :: rest) =
      some (Descriptor.KernelCmdline { p with cmdline := c } :: rest) := by
  simp [setFirstCmdline, hk]

/-- C6: `update_metadata_descriptors` is a no-op for a signed child;
for an unsigned child it folds the merge step over the child's
descriptors, where a child Property descriptor overwrites the value of
the first parent Property descriptor with an equal key and is appended
when no key matches, a child KernelCmdline descriptor whose command
line has a non-empty text before its first equal sign overwrites the
command line of the first parent KernelCmdline descriptor with the same
computed key and is appended when none matches, child command lines
without such a key are skipped, and all other child descriptor kinds
are ignored. -/
theorem c6_update_metadata_descriptors :
    (∀ parent child : Header, child.public_key ≠ [] →
      updateMetadataDescriptors parent child = parent) ∧
    (∀ parent child : Header, child.public_key = [] →
      (updateMetadataDescriptors parent child).descriptors =
        child.descriptors.foldl mergeChildDescriptor parent.descriptors ∧
      (updateMetadataDescriptors parent child).flags = parent.flags ∧
      (updateMetadataDescriptors parent child).public_key = parent.public_key) ∧
    (∀ (c : PropertyDescriptor) (pre post : List Descriptor) (p : PropertyDescriptor),
      (∀ d ∈ pre, isPropWithKey c.key d = false) → p.key = c.key →
      mergeChildDescriptor (pre ++ Descriptor.Property p :: post) (Descriptor.Property c) =
        pre ++ Descriptor.Property { p with value := c.value } :: post) ∧
    (∀ (c : PropertyDescriptor) (ds : List Descriptor),
      (∀ d ∈ ds, isPropWithKey c.key d = false) →
      mergeChildDescriptor ds (Descriptor.Property c) = ds ++ [Descriptor.Property c]) ∧
    (∀ (c : KernelCmdlineDescriptor) (ds : List Descriptor),
      cmdlineKey c.cmdline = none →
      mergeChildDescriptor ds (Descriptor.KernelCmdline c) = ds) ∧
    (∀ (c : KernelCmdlineDescriptor) (k : String) (pre post : List Descriptor)
        (p : KernelCmdlineDescriptor),
      cmdlineKey c.cmdline = some k →
      (∀ d ∈ pre, isCmdlineWithKey k d = false) → cmdlineKey p.cmdline = some k →
      mergeChildDescriptor (pre ++ Descriptor.KernelCmdline p :: post)
          (Descriptor.KernelCmdline c) =
        pre ++ Descriptor.KernelCmdline { p with cmdline := c.cmdline } :: post) ∧
    (∀ (c : KernelCmdlineDescriptor) (k : String) (ds : List Descriptor),
      cmdlineKey c.cmdline = some k →
      (∀ d ∈ ds, isCmdlineWithKey k d = false) →
      mergeChildDescriptor ds (Descriptor.KernelCmdline c) =
        ds ++ [Descriptor.KernelCmdline c]) ∧
    (∀ (ds : List Descriptor) (d : Descriptor), isMetaKind d = false →
      mergeChildDescriptor ds d = ds) := by
  refine ⟨fun parent child h => ?_, fun parent child h => ?_,
    fun c pre post p hpre hk => ?_, fun c ds hds => ?_, fun c ds hck => ?_,
    fun c k pre post p hck hpre hk => ?_, fun c k ds hck hds => ?_, fun ds d hd => ?_⟩
  · simp [updateMetadataDescriptors, h]
  · simp [updateMetadataDescriptors, h]
  · have hskip := setFirstPropValue_skip c.key c.value pre hpre
      (Descriptor.Property p :: post)
    simp only [mergeChildDescriptor, hskip,
      setFirstPropValue_hit c.key c.value p hk post, Option.map_some']
  · have hnone := (setFirstPropValue_none c.key c.value ds).mpr hds
    simp [mergeChildDescriptor, hnone]
  · simp [mergeChildDescriptor, hck]
  · have hskip := setFirstCmdline_skip k c.cmdline pre hpre
      (Descriptor.KernelCmdline p :: post)
    simp only [mergeChildDescriptor, hck, hskip,
      setFirstCmdline_hit k c.cmdline p hk post, Option.map_some']
  · have hnone := (setFirstCmdline_none k c.cmdline ds).mpr hds
    simp [mergeChildDescriptor, hck, hnone]
  · cases d <;> simp_all [mergeChildDescriptor, isMetaKind]

/-- C6 witness: a signed child leaves the parent untouched, and a
concrete Property merge overwrites the matching parent key. -/
theorem c6_witness :
    updateMetadataDescriptors
      { descriptors := [], flags := 0, public_key := [], algorithm_type := 0 }
      { descriptors := [Descriptor.Property { key := "a", value := "b" }],
        flags := 0, public_key := [3], algorithm_type := 0 } =
      { descriptors := [], flags := 0, public_key := [], algorithm_type := 0 } :=
  c6_update_metadata_descriptors.1
    { descriptors := [], flags := 0, public_key := [], algorithm_type := 0 }
    { descriptors := [Descriptor.Property { key := "a", value := "b" }],
      flags := 0, public_key := [3], algorithm_type := 0 }
    (by decide)

theorem mem_insertSorted (a x : String) :
    ∀ l, a ∈ insertSorted x l ↔ a = x ∨ a ∈ l := by
  intro l
  induction l with
  | nil => simp [insertSorted]
  | cons y rest ih =>
    by_cases h1 : x = y
    · simp only [insertSorted, if_pos h1, List.mem_cons]
      subst h1
      tauto
    · by_cases h2 : x < y
      · simp only [insertSorted, if_neg h1, if_pos h2, List.mem_cons]
      · simp only [insertSorted, if_neg h1, if_neg h2, List.mem_cons, ih]
        tauto

theorem mem_foldl_insertSorted (a : String) :
    ∀ (l acc : List String),
      a ∈ l.foldl (fun s x => insertSorted x s) acc ↔ a ∈ acc ∨ a ∈ l := by
  intro l
  induction l with
  | nil => intro acc; simp
  | cons x rest ih =>
    intro acc
    rw [List.foldl_cons, ih (insertSorted x acc), mem_insertSorted]
    simp only [List.mem_cons]
    tauto

theorem mem_sortedInsertAll (a : String) (l : List String) :
    a ∈ sortedInsertAll l ↔ a ∈ l := by
  rw [sortedInsertAll, mem_foldl_insertSorted]
  simp

theorem mem_missingProtected (required : List String)
    (hdrs : List (String × Header)) (n : String) :
    n ∈ missingProtected required hdrs ↔
      (n ∈ required ∧ (isBootName n = true ∨ isVbmetaName n = true) ∧
        ¬ ((∃ p ∈ hdrs, p.1 = n) ∨
           (∃ p ∈ hdrs, ∃ d ∈ p.2.descriptors, d.partitionName? = some n))) := by
  simp only [missingProtected]
  rw [List.mem_filter]
  simp only [Bool.not_eq_true']
  have hcon : ∀ (l : List String) (m : String), (l.contains m = false ↔ ¬ m ∈ l) := by
    intro l m
    simp
  rw [hcon]
  simp only [mem_sortedInsertAll, List.mem_append, List.mem_filter, List.mem_map,
    List.mem_flatMap, List.mem_filterMap]
  constructor
  · rintro ⟨ha, hb⟩
    refine ⟨?_, ?_, ?_⟩
    · rcases ha with ⟨h1, _⟩ | ⟨h1, _⟩ <;> exact h1
    · rcases ha with ⟨_, h2⟩ | ⟨_, h2⟩
      · exact Or.inl h2
      · exact Or.inr h2
    · intro hc
      apply hb
      rcases hc with ⟨p, hp, hpn⟩ | ⟨p, hp, d, hd, hdn⟩
      · exact Or.inl ⟨p, hp, hpn⟩
      · exact Or.inr ⟨p, hp, d, hd, hdn⟩
  · rintro ⟨h1, h2, h3⟩
    refine ⟨?_, ?_⟩
    · rcases h2 with h2 | h2
      · exact Or.inl ⟨h1, h2⟩
      · exact Or.inr ⟨h1, h2⟩
    · intro hc
      apply h3
      rcases hc with ⟨p, hp, hpn⟩ | ⟨p, hp, d, hd, hdn⟩
      · exact Or.inl ⟨p, hp, hpn⟩
      · exact Or.inr ⟨p, hp, d, hd, hdn⟩

/-- C5: `ensure_partitions_protected` returns an error iff some
boot-like or vbmeta-like partition name of the manifest is neither a
loaded vbmeta partition name nor mentioned as a partition name by any
descriptor of any loaded vbmeta header; the error message lists exactly
the missing names. -/
theorem c5_ensure_partitions_protected (required : List String)
    (hdrs : List (String × Header)) :
    (ensurePartitionsProtected required hdrs = Except.ok () ↔
      ∀ n ∈ required, (isBootName n = true ∨ isVbmetaName n = true) →
        ((∃ p ∈ hdrs, p.1 = n) ∨
         (∃ p ∈ hdrs, ∃ d ∈ p.2.descriptors, d.partitionName? = some n))) ∧
    (∀ msg, ensurePartitionsProtected required hdrs = Except.error msg →
      msg = "Found critical partitions that are not protected by AVB: " ++
        String.intercalate ", " (missingProtected required hdrs)) ∧
    (∀ n, n ∈ missingProtected required hdrs ↔
      (n ∈ required ∧ (isBootName n = true ∨ isVbmetaName n = true) ∧
        ¬ ((∃ p ∈ hdrs, p.1 = n) ∨
           (∃ p ∈ hdrs, ∃ d ∈ p.2.descriptors, d.partitionName? = some n)))) := by
  have hmem := mem_missingProtected required hdrs
  have hempty : ensurePartitionsProtected required hdrs = Except.ok () ↔
      missingProtected required hdrs = [] := by
    cases hml : missingProtected required hdrs with
    | nil => simp [ensurePartitionsProtected, hml]
    | cons x xs => simp [ensurePartitionsProtected, hml]
  refine ⟨?_, ?_, hmem⟩
  · rw [hempty, List.eq_nil_iff_forall_not_mem]
    constructor
    · intro hnone n hn hb
      by_contra hc
      exact hnone n ((hmem n).mpr ⟨hn, hb, hc⟩)
    · intro hcov n hn
      rcases (hmem n).mp hn with ⟨h1, h2, h3⟩
      exact h3 (hcov n h1 h2)
  · intro msg hmsg
    cases hml : missingProtected required hdrs with
    | nil => simp [ensurePartitionsProtected, hml] at hmsg
    | cons x xs =>
      rw [ensurePartitionsProtected] at hmsg
      simp only [hml, List.isEmpty_cons, if_neg] at hmsg
      simp only [Bool.false_eq_true, if_false, Except.error.injEq] at hmsg
      rw [← hmsg]

/-- C5 witness: a manifest with an unprotected `recovery` partition and
no vbmeta headers. -/
theorem c5_witness :
    ("recovery" ∈ missingProtected ["recovery"] [] ↔
      ("recovery" ∈ ["recovery"] ∧
        (isBootName "recovery" = true ∨ isVbmetaName "recovery" = true) ∧
        ¬ ((∃ p ∈ ([] : List (String × Header)), p.1 = "recovery") ∨
           (∃ p ∈ ([] : List (String × Header)), ∃ d ∈ p.2.descriptors,
             d.partitionName? = some "recovery")))) :=
  (c5_ensure_partitions_protected ["recovery"] []).2.2 "recovery"

theorem updateSecurityDescriptors_fields (parent child : Header) (pName cName : String)
    (h' : Header)
    (h : updateSecurityDescriptors parent child pName cName = Except.ok h') :
    h'.flags = parent.flags ∧ h'.public_key = parent.public_key := by
  simp only [updateSecurityDescriptors] at h
  cases hres : updateSecDescList child pName cName parent.descriptors <;>
    rw [hres] at h <;> simp [Except.map] at h
  subst h
  exact ⟨rfl, rfl⟩

theorem updateMetadataDescriptors_fields (parent child : Header) :
    (updateMetadataDescriptors parent child).flags = parent.flags ∧
    (updateMetadataDescriptors parent child).public_key = parent.public_key := by
  rw [updateMetadataDescriptors]
  by_cases h : child.public_key = [] <;> simp [h]

theorem depsFold_flags (images : List (String × InputFile)) (pName : String) :
    ∀ (deps : List String) (h0 h' : Header),
      depsFold images pName h0 deps = Except.ok h' → h'.flags = h0.flags := by
  intro deps
  induction deps with
  | nil =>
    intro h0 h' h
    simp [depsFold, List.foldlM_nil, pure, Except.pure] at h
    rw [← h]
  | cons d ds ih =>
    intro h0 h' h
    rw [depsFold, List.foldlM_cons] at h
    cases ha : applyDep images pName h0 d with
    | error e => rw [ha] at h; simp [Bind.bind, Except.bind] at h
    | ok h1 =>
      rw [ha] at h
      simp only [Bind.bind, Except.bind] at h
      have h1f : h1.flags = h0.flags := by
        simp only [applyDep] at ha
        cases hl : loadChildHeader images d with
        | error e => rw [hl] at ha; simp [Bind.bind, Except.bind] at ha
        | ok child =>
          rw [hl] at ha
          simp only [Bind.bind, Except.bind] at ha
          cases hu : updateSecurityDescriptors h0 child pName d with
          | error e => rw [hu] at ha; simp [Bind.bind, Except.bind] at ha
          | ok hs =>
            rw [hu] at ha
            simp [Bind.bind, Except.bind] at ha
            rw [← ha, (updateMetadataDescriptors_fields hs child).1,
              (updateSecurityDescriptors_fields h0 child pName d hs hu).1]
      rw [ih h1 h' (by simpa [depsFold] using h), h1f]

/-- C4: for a vbmeta header processed by `update_vbmeta_headers` whose
flags field is non-zero, the operation fails with an error naming that
image when flag clearing is off; when flag clearing is on, the flags
are set to zero, the header (now differing from its snapshot) is
re-signed, and the pool entry is replaced and marked `Modified`. -/
theorem c4_update_vbmeta_flags (clear : Bool) (key bs : Nat)
    (images : List (String × InputFile)) (headers : List (String × Header))
    (name : String) (deps : List String) (h : Header)
    (hh : lookupA headers name = some h) (hf : h.flags ≠ 0) :
    (clear = false →
      updateVbmetaStep clear key bs (images, headers) (name, deps) =
        Except.error (vbmetaFlagsError name h.flags) ∧
      ∀ rest, updateVbmetaHeaders clear key bs images headers ((name, deps) :: rest) =
        Except.error (vbmetaFlagsError name h.flags)) ∧
    (clear = true →
      ∀ h2, depsFold images name { h with flags := 0 } deps = Except.ok h2 →
        updateVbmetaStep clear key bs (images, headers) (name, deps) =
          Except.ok
            (setA images name
              { hdr := some (Header.sign key (Header.setAlgoForKey key h2)),
                state := InputFileState.Modified },
             setA headers name (Header.sign key (Header.setAlgoForKey key h2))) ∧
        (Header.sign key (Header.setAlgoForKey key h2)).flags = 0) := by
  constructor
  · intro hclear
    have hstep : updateVbmetaStep clear key bs (images, headers) (name, deps) =
        Except.error (vbmetaFlagsError name h.flags) := by
      simp only [updateVbmetaStep, hh, ne_eq, hf, not_false_eq_true, if_true, hclear,
        Bool.false_eq_true, if_false]
      rfl
    refine ⟨hstep, fun rest => ?_⟩
    rw [updateVbmetaHeaders, List.foldlM_cons, hstep]
    rfl
  · intro hclear h2 hdf
    have hflags2 : h2.flags = 0 := by
      simpa using depsFold_flags images name deps { h with flags := 0 } h2 hdf
    have hne : ¬ h2 = h := by
      intro he
      rw [he] at hflags2
      exact hf hflags2
    constructor
    · simp only [updateVbmetaStep, hh, ne_eq, hf, not_false_eq_true, if_true, hclear, if_true]
      show (depsFold images name { h with flags := 0 } deps >>= fun h2 =>
        if h2 = h then Except.ok (images, setA headers name h2)
        else Except.ok
          (setA images name
            { hdr := some (Header.sign key (Header.setAlgoForKey key h2)),
              state := InputFileState.Modified },
           setA headers name (Header.sign key (Header.setAlgoForKey key h2)))) = _
      rw [hdf]
      simp [Bind.bind, Except.bind, hne]
    · simp [Header.sign, Header.setAlgoForKey, hflags2]

/-- C4 witness: a vbmeta header with flags 1, no dependencies, and flag
clearing enabled. -/
theorem c4_witness :
    updateVbmetaStep true 7 4096
      ([("vbmeta",
          { hdr := some { descriptors := [], flags := 1, public_key := [], algorithm_type := 0 },
            state := InputFileState.Extracted })],
       [("vbmeta", { descriptors := [], flags := 1, public_key := [], algorithm_type := 0 })])
      ("vbmeta", []) =
      Except.ok
        (setA
          [("vbmeta",
            { hdr := some { descriptors := [], flags := 1, public_key := [], algorithm_type := 0 },
              state := InputFileState.Extracted })]
          "vbmeta"
          { hdr := some (Header.sign 7 (Header.setAlgoForKey 7
              { descriptors := [], flags := 0, public_key := [], algorithm_type := 0 })),
            state := InputFileState.Modified },
         setA
          [("vbmeta", { descriptors := [], flags := 1, public_key := [], algorithm_type := 0 })]
          "vbmeta"
          (Header.sign 7 (Header.setAlgoForKey 7
            { descriptors := [], flags := 0, public_key := [], algorithm_type := 0 }))) ∧
    (Header.sign 7 (Header.setAlgoForKey 7
      { descriptors := [], flags := 0, public_key := [], algorithm_type := 0 })).flags = 0 :=
  (c4_update_vbmeta_flags true 7 4096
    [("vbmeta",
      { hdr := some { descriptors := [], flags := 1, public_key := [], algorithm_type := 0 },
        state := InputFileState.Extracted })]
    [("vbmeta", { descriptors := [], flags := 1, public_key := [], algorithm_type := 0 })]
    "vbmeta" []
    { descriptors := [], flags := 1, public_key := [], algorithm_type := 0 }
    rfl (by decide)).2 rfl
    { descriptors := [], flags := 0, public_key := [], algorithm_type := 0 } rfl

/-- C7: the range hint is present exactly for the system target not
supplied as an external replacement; only a present hint can make
`compress_image` take the partial recompression path; when the partial
path reports out-of-order extents the image is fully recompressed with
the fallback warning logged; with no hint the image is fully
recompressed with fresh operations, all of them REPLACE and jointly
covering every block, and all operation indices reported modified. -/
theorem c7_compress_image :
    (∀ (name systemTarget : String) (ext : List String) (rs : List (Nat × Nat)),
      (rangeHintArg name systemTarget ext rs).isSome = true ↔
        (name = systemTarget ∧ ¬ name ∈ ext)) ∧
    (∀ (ranges : Option (List (Nat × Nat))) f origOps nb cb out,
      compressImage ranges f origOps nb cb = Except.ok out →
      out.viaRangeHint = true → ranges.isSome = true) ∧
    (∀ (r : List (Nat × Nat)) f origOps nb cb,
      f r = Except.error PayloadErr.extentsNotInOrder →
      compressImage (some r) f origOps nb cb =
        Except.ok { ops := fullCompressOps nb cb,
                    modifiedOps := [(0, (fullCompressOps nb cb).length)],
                    viaRangeHint := false, warnedFallback := true }) ∧
    (∀ f origOps nb cb,
      compressImage none f origOps nb cb =
        Except.ok { ops := fullCompressOps nb cb,
                    modifiedOps := [(0, (fullCompressOps nb cb).length)],
                    viaRangeHint := false, warnedFallback := false }) ∧
    (∀ nb cb, 0 < cb →
      (∀ op ∈ fullCompressOps nb cb, op.typ = InstOpType.REPLACE) ∧
      (∀ b, b < nb →
        ∃ op ∈ fullCompressOps nb cb, ∃ e ∈ op.dstExtents, extentCovers e b)) := by
  refine ⟨fun name systemTarget ext rs => ?_, fun ranges f origOps nb cb out hout htrue => ?_,
    fun r f origOps nb cb hf => ?_, fun f origOps nb cb => ?_, fun nb cb hcb => ⟨?_, ?_⟩⟩
  · by_cases h1 : name = systemTarget <;> by_cases h2 : name ∈ ext <;>
      simp [rangeHintArg, h1, h2]
  · cases ranges with
    | none =>
      simp only [compressImage] at hout
      rw [← Except.ok.inj hout] at htrue
      simp at htrue
    | some r => rfl
  · simp [compressImage, hf]
  · rfl
  · intro op hop
    rw [fullCompressOps] at hop
    rcases List.mem_map.mp hop with ⟨i, _, rfl⟩
    rfl
  · intro b hb
    refine ⟨_, List.mem_map.mpr ⟨b / cb, List.mem_range.mpr ?_, rfl⟩, ?_⟩
    · have h3 : nb + cb - 1 = nb - 1 + cb := by omega
      rw [h3, Nat.add_div_right _ hcb]
      exact Nat.lt_succ_of_le (Nat.div_le_div_right (by omega))
    · refine ⟨{ startBlock := b / cb * cb, numBlocks := min cb (nb - b / cb * cb) },
        by simp, ?_⟩
      have hd2 := Nat.div_add_mod b cb
      have hd2' : b / cb * cb + b % cb = b := by rw [Nat.mul_comm] at hd2; exact hd2
      have hd3 : b % cb < cb := Nat.mod_lt _ hcb
      constructor
      · show b / cb * cb ≤ b
        omega
      · show b < b / cb * cb + min cb (nb - b / cb * cb)
        omega

/-- C7 witness: the partial path reports out-of-order extents and the
function falls back to full recompression with a warning. -/
theorem c7_witness :
    compressImage (some [(0, 4096)])
      (fun _ => Except.error PayloadErr.extentsNotInOrder) [] 4 2 =
      Except.ok { ops := fullCompressOps 4 2,
                  modifiedOps := [(0, (fullCompressOps 4 2).length)],
                  viaRangeHint := false, warnedFallback := true } :=
  c7_compress_image.2.2.1 [(0, 4096)]
    (fun _ => Except.error PayloadErr.extentsNotInOrder) [] 4 2 rfl

/-- C1, as the specification states it: no operation of a patch run
moves a pool entry straight from `External` to `Modified`.  This is
false: the boot-image patch writer callback (ota.rs lines 229-235) sets
the state of the entry it patches to `Modified` regardless of the
previous state, so an externally replaced boot image never passes
through `Extracted`. -/
theorem c1_counterexample :
    ¬ (∀ f ∈ patchRunStateTrajectories, directExternalToModified f = false) := by
  intro h
  have hb := h bootPatchStates (by simp [patchRunStateTrajectories])
  simp [directExternalToModified, bootPatchStates] at hb

/-- C1 (amended): the system-image patch path stages an `External`
entry through `Extracted` before marking it `Modified`, but the
boot-image patch writer and the vbmeta rewrite set the entry state
directly to `Modified` regardless of the previous state, so an
externally supplied boot or vbmeta image transitions `External` to
`Modified` without passing through `Extracted`. -/
theorem c1_amended_trajectories :
    directExternalToModified systemPatchStates = false ∧
    systemPatchStates InputFileState.External =
      [InputFileState.Extracted, InputFileState.Modified] ∧
    (∀ s, bootPatchStates s = [InputFileState.Modified]) ∧
    (∀ s, vbmetaRewriteStates s = [InputFileState.Modified]) ∧
    directExternalToModified bootPatchStates = true ∧
    directExternalToModified vbmetaRewriteStates = true :=
  ⟨by decide, by decide, fun _ => rfl, fun _ => rfl, by decide, by decide⟩

/-- C3 (code bug): on a pool with a single vbmeta image that has no
dependency edges, `get_vbmeta_patch_order` passes the root check (the
image is the unique root) and returns an empty order, omitting the
vbmeta node.  The code's own comment (ota.rs lines 414-416) states that
all vbmeta images are included, even those with no dependencies, so
that their flags can be validated. -/
theorem c3_code_bug_isolated_root :
    getVbmetaPatchOrder
      [("vbmeta",
        { hdr := some { descriptors := [], flags := 0, public_key := [], algorithm_type := 0 },
          state := InputFileState.Extracted })]
      [("vbmeta", { descriptors := [], flags := 0, public_key := [], algorithm_type := 0 })] =
      Except.ok [] := rfl

/-- C8: a rewritten archive entry uses zip64 extensions iff the input
entry's declared size is at least 2^32 - 1; in particular a size of
exactly 2^32 - 1 triggers zip64 and a size of exactly 2^32 - 2 does
not. -/
theorem c8_zip64_threshold :
    (∀ size : Nat, useZip64 size = true ↔ 2 ^ 32 - 1 ≤ size) ∧
    useZip64 (2 ^ 32 - 1) = true ∧ useZip64 (2 ^ 32 - 2) = false := by
  refine ⟨fun size => ?_, by decide, by decide⟩
  simp only [useZip64, ge_iff_le, decide_eq_true_eq]
  norm_num

/-- C9: after the entry loop, the first free offset handed to the OTA
metadata generator is `last.offset + last.size + d`, where `last` is
the final non-metadata entry written in iteration order and `d` is 24
bytes when that entry was written with zip64 and 16 bytes otherwise. -/
theorem c9_first_free_offset (l : List InEntry) (last : ZipEntryRec)
    (h : (runEntryLoop l).entries.getLast? = some last) :
    firstFreeOffset (runEntryLoop l) =
      some (last.offset + last.size + (if last.zip64 then 24 else 16)) ∧
    ((l.filter (fun e => !isMetadataPath e.path)).getLast?).map mkZipRec = some last := by
  have hz : (runEntryLoop l).lastZip64 = last.zip64 := by
    refine entryLoop_lastZip64 l { entries := [], lastZip64 := false } ?_ last h
    intro x hx
    simp at hx
  constructor
  · simp [firstFreeOffset, h, dataDescSize, hz]
  · have he := entryLoop_entries l { entries := [], lastZip64 := false }
    rw [runEntryLoop] at h
    rw [he] at h
    simpa [List.getLast?_map] using h

/-- C9 witness: a concrete one-entry loop. -/
theorem c9_witness :
    firstFreeOffset (runEntryLoop [{ path := "payload.bin", declSize := 5, outOffset := 100, outSize := 7 }]) =
      some ((mkZipRec { path := "payload.bin", declSize := 5, outOffset := 100, outSize := 7 }).offset +
        (mkZipRec { path := "payload.bin", declSize := 5, outOffset := 100, outSize := 7 }).size +
        (if (mkZipRec { path := "payload.bin", declSize := 5, outOffset := 100, outSize := 7 }).zip64 then 24 else 16)) ∧
    (([{ path := "payload.bin", declSize := 5, outOffset := 100, outSize := 7 }] : List InEntry).filter
        (fun e => !isMetadataPath e.path)).getLast?.map mkZipRec =
      some (mkZipRec { path := "payload.bin", declSize := 5, outOffset := 100, outSize := 7 }) :=
  c9_first_free_offset
    [{ path := "payload.bin", declSize := 5, outOffset := 100, outSize := 7 }]
    (mkZipRec { path := "payload.bin", declSize := 5, outOffset := 100, outSize := 7 })
    rfl

/-- C10: the CMS-embedded certificate must equal the certificate in the
archive's OTA certificate entry even when no trusted certificate is
supplied; omitting the trusted certificate only downgrades the trust
check to a warning (the `Except.ok true` outcome) and never skips the
consistency check. -/
theorem c10_cert_consistency (e o : Cert) (t : Option Cert) (h : e ≠ o) :
    verifyOtaCerts e o t =
      Except.error ("CMS embedded certificate does not match " ++ PATH_OTACERT) ∧
    verifyOtaCerts o o none = Except.ok true := by
  constructor
  · simp [verifyOtaCerts, h]
  · simp [verifyOtaCerts]

/-- C10 witness: concrete mismatching certificates without a trusted
certificate. -/
theorem c10_witness :
    verifyOtaCerts 1 2 none =
      Except.error ("CMS embedded certificate does not match " ++ PATH_OTACERT) ∧
    verifyOtaCerts 2 2 none = Except.ok true :=
  c10_cert_consistency 1 2 none (by decide)

end AvbrootOta
